import Mathlib

/-!
# Verification of the `diffusivity_estimation` porous-media diffusivity code

Shallow embedding of `src/porous_media/parameters.py` and
`src/raw_data/read_data.py`.  Machine floats are modelled by real numbers;
Python exceptions (`KeyError` on dictionary lookup, `AssertionError` in
`omega_ij` and `get_LJ_params`) are modelled with `Option`/`Except`.
The mutable instance attribute `molecular_weight` (set by
`FluidMixture.knudsen_i`) is modelled by threading the updated model state
through the return value of every method that mutates it.
-/

open scoped Classical

noncomputable section

/-- Python dict built as `{key: val for key, val in zip(...)}` and read with
`d[k]`: lookup returns the value of the *last* binding of the key (later
entries of the comprehension overwrite earlier ones), `none` plays the role
of a `KeyError`. -/
def dictFind? (d : List (String × ℝ)) (k : String) : Option ℝ :=
  match d with
  | [] => none
  | (k', v) :: rest =>
    match dictFind? rest k with
    | some v' => some v'
    | none => if k' = k then some v else none

/-- `PureFluid` from `src/porous_media/parameters.py`: geometry of the porous
medium, an optional single-species molecular weight (the constructor default
is `None`), and the gas constant stored as the instance attribute `R`. -/
structure PureFluid where
  void_fraction : ℝ
  d_pore : ℝ
  molecular_weight : Option ℝ
  tortuosity : ℝ
  R : ℝ

/-- `PureFluid.__init__(void_fraction, d_pore, tortuosity, molecular_weight)`:
stores the geometry and sets `self.R = 8.314`. -/
def PureFluid.init (void_fraction d_pore tortuosity : ℝ)
    (molecular_weight : Option ℝ) : PureFluid :=
  { void_fraction := void_fraction
    d_pore := d_pore
    molecular_weight := molecular_weight
    tortuosity := tortuosity
    R := 8.314 }

/-- `PureFluid.knudsen(T)`:
`void_fraction*d_pore/tortuosity/3.*sqrt(8*R*T/pi/molecular_weight)`.
Reading `self.molecular_weight` when it is still `None` is a Python
`TypeError`, modelled as `none`. -/
def PureFluid.knudsen (p : PureFluid) (T : ℝ) : Option ℝ :=
  match p.molecular_weight with
  | none => none
  | some M =>
    some (p.void_fraction * p.d_pore / p.tortuosity / 3 *
      Real.sqrt (8 * p.R * T / Real.pi / M))

/-- `FluidMixture(PureFluid)`: per-species parameter dictionaries built with
`zip` comprehensions plus the ordered component list. -/
structure FluidMixture extends PureFluid where
  molecular_weight_i : List (String × ℝ)
  sigma_i : List (String × ℝ)
  epsilon_i : List (String × ℝ)
  component_i : List String

/-- `FluidMixture.__init__(components, molecular_weight, sigma,
epsilon_molecular, *args)`: calls `PureFluid.__init__(*args)` (so the
inherited `molecular_weight` starts as `None`) and builds the three
dictionaries by zipping `components` with each value list (`zip` truncates to
the shorter list). -/
def FluidMixture.init (components : List String)
    (molecular_weight sigma epsilon_molecular : List ℝ)
    (void_fraction d_pore tortuosity : ℝ) : FluidMixture :=
  { toPureFluid := PureFluid.init void_fraction d_pore tortuosity none
    molecular_weight_i := components.zip molecular_weight
    sigma_i := components.zip sigma
    epsilon_i := components.zip epsilon_molecular
    component_i := components }

/-- The assignment `self.molecular_weight = ...` performed by
`FluidMixture.knudsen_i`: every other attribute is untouched. -/
def FluidMixture.setMW (m : FluidMixture) (o : Option ℝ) : FluidMixture :=
  { m with molecular_weight := o }

/-- `FluidMixture.knudsen_i(i, j, temperature, pressure)`: mutates
`self.molecular_weight` to `self.molecular_weight_i[i]` then calls the
inherited `knudsen`; `j` and `pressure` are ignored.  Returns the mutated
model together with the value. -/
def FluidMixture.knudsen_i (m : FluidMixture) (i j : String)
    (temperature pressure : ℝ) : Option (FluidMixture × ℝ) :=
  match dictFind? m.molecular_weight_i i with
  | none => none
  | some M =>
    match ((m.setMW (some M)).toPureFluid.knudsen temperature) with
    | none => none
    | some v => some (m.setMW (some M), v)

/-- `FluidMixture.sigma_ij_rule(i, j) = (sigma_i[i] + sigma_i[j]) / 2.` -/
def FluidMixture.sigma_ij_rule (m : FluidMixture) (i j : String) : Option ℝ :=
  match dictFind? m.sigma_i i, dictFind? m.sigma_i j with
  | some si, some sj => some ((si + sj) / 2)
  | _, _ => none

/-- `FluidMixture.epsilon_ij_rule(i, j) = sqrt(epsilon_i[i] * epsilon_i[j])` -/
def FluidMixture.epsilon_ij_rule (m : FluidMixture) (i j : String) : Option ℝ :=
  match dictFind? m.epsilon_i i, dictFind? m.epsilon_i j with
  | some ei, some ej => some (Real.sqrt (ei * ej))
  | _, _ => none

/-- The Bird-1960 collision-integral correlation value computed inside
`FluidMixture.omega_ij`:
`A1/pow(w,B1) + A2/exp(B2*w) + A3/exp(B3*w) + A4/exp(B4*w)` with
`A1, B1, A2, B2 = 1.06036, 0.15610, 0.19300, 0.47635` and
`A3, B3, A4, B4 = 1.03587, 1.52996, 1.76474, 3.89411`. -/
def FluidMixture.omegaValue (w : ℝ) : ℝ :=
  1.06036 / w ^ (0.15610 : ℝ) + 0.19300 / Real.exp (0.47635 * w) +
    1.03587 / Real.exp (1.52996 * w) + 1.76474 / Real.exp (3.89411 * w)

/-- `FluidMixture.omega_ij(w)`: computes the correlation value and
`assert 0.5 < value < 2.7` (a failed assertion is `none`). -/
def FluidMixture.omega_ij (w : ℝ) : Option ℝ :=
  if 0.5 < FluidMixture.omegaValue w ∧ FluidMixture.omegaValue w < 2.7 then
    some (FluidMixture.omegaValue w)
  else none

/-- `FluidMixture.molecular_ij(i, j, T, P)` (Chapman-Enskog, `P` in atm):
converts the stored molecular weights to g/mol (`*1000.`), then
`1.858e-3 * sqrt(T*T*T * (1./M_i + 1./M_j)) /
 (P * sigma_ij_rule(i,j) * sigma_ij_rule(i,j) * omega_ij(T/epsilon_ij_rule(i,j)))
 /100./100.` -/
def FluidMixture.molecular_ij (m : FluidMixture) (i j : String)
    (T P : ℝ) : Option ℝ :=
  match dictFind? m.molecular_weight_i i, dictFind? m.molecular_weight_i j with
  | some mi, some mj =>
    match m.sigma_ij_rule i j, m.epsilon_ij_rule i j with
    | some s, some e =>
      match FluidMixture.omega_ij (T / e) with
      | some om =>
        some (1.858e-3 * Real.sqrt (T * T * T * (1 / (mi * 1000) + 1 / (mj * 1000))) /
          (P * s * s * om) / 100 / 100)
      | none => none
    | _, _ => none
  | _, _ => none

/-- `FluidMixture.effective_macropore_i(i, j, temperature, pressure)`
(`pressure` in Pa): `P_atm = pressure/101325.`, then
`void_fraction/tortuosity/(1./molecular_ij(i,j,T,P_atm) + 1./knudsen_i(i,j,T,pressure))`.
The call to `knudsen_i` mutates the model, so the updated state is returned. -/
def FluidMixture.effective_macropore_i (m : FluidMixture) (i j : String)
    (temperature pressure : ℝ) : Option (FluidMixture × ℝ) :=
  match m.molecular_ij i j temperature (pressure / 101325) with
  | none => none
  | some dm =>
    match m.knudsen_i i j temperature pressure with
    | none => none
    | some (m1, dk) =>
      some (m1, m.void_fraction / m.tortuosity / (1 / dm + 1 / dk))

/-- One output row of `FluidMixture.write_calculations`:
`(species_i, species_j, attribute name, value)`.  The ` [m^2/s]` unit suffix
and the `%e` formatting of the CSV line are not modelled. -/
def Row : Type := String × String × String × ℝ

/-- The attribute-name component of a `Row`. -/
def Row.attr (r : Row) : String := r.2.2.1

/-- The `(species_i, species_j, attribute)` part of a `Row`. -/
def Row.proj (r : Row) : String × String × String := (r.1, r.2.1, r.2.2.1)

/-- The body of the `for attr in [...]` loop of
`FluidMixture.write_calculations` for one ordered pair `(i, j)`: calls
`effective_macropore_i`, `knudsen_i` and `molecular_ij` in that order with the
same `(i, j, temperature, pressure)` arguments and emits one row per call,
threading the model state mutated by the first two calls. -/
def FluidMixture.rowsForPair (m : FluidMixture) (i j : String)
    (temperature pressure : ℝ) : Option (FluidMixture × List Row) :=
  match m.effective_macropore_i i j temperature pressure with
  | none => none
  | some (m1, v1) =>
    match m1.knudsen_i i j temperature pressure with
    | none => none
    | some (m2, v2) =>
      match m2.molecular_ij i j temperature pressure with
      | none => none
      | some v3 =>
        some (m2, [(i, j, "effective_macropore_i", v1),
                   (i, j, "knudsen_i", v2),
                   (i, j, "molecular_ij", v3)])

/-- The inner `for j in self.component_i` loop of `write_calculations` for a
fixed `i`: skips `j` with `i == j`, otherwise emits the three rows for the
pair. -/
def FluidMixture.innerLoop (m : FluidMixture) (i : String) (js : List String)
    (temperature pressure : ℝ) : Option (FluidMixture × List Row) :=
  match js with
  | [] => some (m, [])
  | j :: rest =>
    if i = j then m.innerLoop i rest temperature pressure
    else
      match m.rowsForPair i j temperature pressure with
      | none => none
      | some (m1, rs) =>
        match m1.innerLoop i rest temperature pressure with
        | none => none
        | some (m2, rs2) => some (m2, rs ++ rs2)

/-- The outer `for i in self.component_i` loop of `write_calculations`.
`cs` is the full component list iterated by the inner loop. -/
def FluidMixture.outerLoop (m : FluidMixture) (iList cs : List String)
    (temperature pressure : ℝ) : Option (FluidMixture × List Row) :=
  match iList with
  | [] => some (m, [])
  | i :: rest =>
    match m.innerLoop i cs temperature pressure with
    | none => none
    | some (m1, rs) =>
      match m1.outerLoop rest cs temperature pressure with
      | none => none
      | some (m2, rs2) => some (m2, rs ++ rs2)

/-- `FluidMixture.write_calculations(output_file, temperature, pressure)`:
both loops run over `self.component_i` (the mutation performed by
`knudsen_i`/`effective_macropore_i` never touches `component_i`).  The rows
written to the file are returned as a list. -/
def FluidMixture.write_calculations (m : FluidMixture)
    (temperature pressure : ℝ) : Option (FluidMixture × List Row) :=
  m.outerLoop m.component_i m.component_i temperature pressure

/-- `get_LJ_params(components, LJ_data)` from `src/raw_data/read_data.py`.
The columnar `LJ_data` dict is passed as the `Substance` column `sub` and the
`sigma [angstrom]` / `epsilon [K]` columns `sigCol`, `epsCol`.  For each
component: `assert key in LJ_data['Substance']` (message
`'No parameters found for {} in LJparams.csv'.format(key)`), then looks up
the columns at `LJ_data['Substance'].index(key)` (an out-of-range index on a
ragged table is a Python `IndexError`, modelled as a distinct error). -/
def get_LJ_params (components sub : List String) (sigCol epsCol : List ℝ) :
    Except String (List ℝ × List ℝ) :=
  match components with
  | [] => Except.ok ([], [])
  | key :: rest =>
    if key ∈ sub then
      match sigCol.get? (sub.indexOf key), epsCol.get? (sub.indexOf key) with
      | some s, some e =>
        match get_LJ_params rest sub sigCol epsCol with
        | Except.ok (sigma, epsilon) => Except.ok (s :: sigma, e :: epsilon)
        | Except.error msg => Except.error msg
      | _, _ => Except.error "IndexError"
    else
      Except.error ("No parameters found for " ++ key ++ " in LJparams.csv")

/-! ## A concrete two-species mixture used by the witnesses

Methane/hydrogen with round parameter values; `o` is the current value of the
mutable inherited `molecular_weight` attribute, so that the state reached
after any sequence of `knudsen_i` calls is again of the form `WMix o`. -/

def WMix (o : Option ℝ) : FluidMixture :=
  { void_fraction := 0.5
    d_pore := 1e-8
    molecular_weight := o
    tortuosity := 2
    R := 8.314
    molecular_weight_i := [("CH4", 0.016), ("H2", 0.002)]
    sigma_i := [("CH4", 4), ("H2", 3)]
    epsilon_i := [("CH4", 300), ("H2", 300)]
    component_i := ["CH4", "H2"] }

/-- Knudsen diffusivity of CH4 in the witness mixture at `T = 300`. -/
def kCH4val : ℝ :=
  0.5 * 1e-8 / 2 / 3 * Real.sqrt (8 * 8.314 * 300 / Real.pi / 0.016)

/-- Knudsen diffusivity of H2 in the witness mixture at `T = 300`. -/
def kH2val : ℝ :=
  0.5 * 1e-8 / 2 / 3 * Real.sqrt (8 * 8.314 * 300 / Real.pi / 0.002)

/-- Molecular diffusivity of the (CH4, H2) pair in the witness mixture at
`T = 300` and pressure `P`. -/
def mCH4H2val (P : ℝ) : ℝ :=
  1.858e-3 * Real.sqrt (300 * 300 * 300 * (1 / (0.016 * 1000) + 1 / (0.002 * 1000))) /
    (P * ((4 + 3) / 2) * ((4 + 3) / 2) * FluidMixture.omegaValue 1) / 100 / 100

/-- Molecular diffusivity of the (H2, CH4) pair in the witness mixture at
`T = 300` and pressure `P`. -/
def mH2CH4val (P : ℝ) : ℝ :=
  1.858e-3 * Real.sqrt (300 * 300 * 300 * (1 / (0.002 * 1000) + 1 / (0.016 * 1000))) /
    (P * ((3 + 4) / 2) * ((3 + 4) / 2) * FluidMixture.omegaValue 1) / 100 / 100

/-- Effective macropore diffusivity of (CH4, H2) at `T = 300`, `P = 101325` Pa. -/
def effCH4H2val : ℝ :=
  0.5 / 2 / (1 / mCH4H2val (101325 / 101325) + 1 / kCH4val)

/-- Effective macropore diffusivity of (H2, CH4) at `T = 300`, `P = 101325` Pa. -/
def effH2CH4val : ℝ :=
  0.5 / 2 / (1 / mH2CH4val (101325 / 101325) + 1 / kH2val)

/-! ## The output table of `write_calculations` -/

/-- The three `(i, j, attribute)` labels emitted for one ordered pair, in the
order of the `for attr in [...]` loop. -/
def pairAttrs (i j : String) : List (String × String × String) :=
  [(i, j, "effective_macropore_i"), (i, j, "knudsen_i"), (i, j, "molecular_ij")]

/-- The `(species_i, species_j, attribute)` labels of the full output table:
for every ordered pair of components with `i ≠ j`, in insertion order, the
three attribute rows. -/
def expectedTriples (cs : List String) : List (String × String × String) :=
  cs.flatMap fun i => (cs.filter fun j => decide (¬ i = j)).flatMap (pairAttrs i)

/-- The six rows written for the concrete two-species mixture. -/
def wRows : List Row :=
  [("CH4", "H2", "effective_macropore_i", effCH4H2val),
   ("CH4", "H2", "knudsen_i", kCH4val),
   ("CH4", "H2", "molecular_ij", mCH4H2val 101325),
   ("H2", "CH4", "effective_macropore_i", effH2CH4val),
   ("H2", "CH4", "knudsen_i", kH2val),
   ("H2", "CH4", "molecular_ij", mH2CH4val 101325)]

/-! ## Helper lemmas -/

theorem omega_ij_some_eq {w v : ℝ} (h : FluidMixture.omega_ij w = some v) :
    v = FluidMixture.omegaValue w := by
  unfold FluidMixture.omega_ij at h
  by_cases hc : 0.5 < FluidMixture.omegaValue w ∧ FluidMixture.omegaValue w < 2.7
  · rw [if_pos hc] at h
    exact (Option.some.injEq _ _ ▸ h).symm
  · rw [if_neg hc] at h
    exact absurd h (by simp)

theorem omega_ij_some_bounds {w v : ℝ} (h : FluidMixture.omega_ij w = some v) :
    0.5 < v ∧ v < 2.7 := by
  unfold FluidMixture.omega_ij at h
  by_cases hc : 0.5 < FluidMixture.omegaValue w ∧ FluidMixture.omegaValue w < 2.7
  · rw [if_pos hc] at h
    obtain rfl : FluidMixture.omegaValue w = v := by
      simpa using h
    exact hc
  · rw [if_neg hc] at h
    exact absurd h (by simp)

theorem omega_ij_eq_none_iff (w : ℝ) :
    FluidMixture.omega_ij w = none ↔
      FluidMixture.omegaValue w ≤ 0.5 ∨ 2.7 ≤ FluidMixture.omegaValue w := by
  unfold FluidMixture.omega_ij
  by_cases hc : 0.5 < FluidMixture.omegaValue w ∧ FluidMixture.omegaValue w < 2.7
  · rw [if_pos hc]
    simp only [reduceCtorEq, false_iff]
    push_neg
    exact ⟨hc.1, hc.2⟩
  · rw [if_neg hc]
    simp only [true_iff]
    push_neg at hc
    by_cases h1 : 0.5 < FluidMixture.omegaValue w
    · exact Or.inr (hc h1)
    · exact Or.inl (le_of_not_lt h1)

theorem omega_ij_eq_some_of_bounds {w : ℝ}
    (h1 : 0.5 < FluidMixture.omegaValue w) (h2 : FluidMixture.omegaValue w < 2.7) :
    FluidMixture.omega_ij w = some (FluidMixture.omegaValue w) := by
  unfold FluidMixture.omega_ij
  rw [if_pos ⟨h1, h2⟩]

theorem omegaValue_one_bounds :
    0.5 < FluidMixture.omegaValue 1 ∧ FluidMixture.omegaValue 1 < 2.7 := by
  unfold FluidMixture.omegaValue
  rw [Real.one_rpow]
  have e2 : (1.47635 : ℝ) < Real.exp (0.47635 * 1) := by
    have := Real.add_one_lt_exp (show (0.47635 : ℝ) * 1 ≠ 0 by norm_num)
    linarith
  have e3 : (2.52996 : ℝ) < Real.exp (1.52996 * 1) := by
    have := Real.add_one_lt_exp (show (1.52996 : ℝ) * 1 ≠ 0 by norm_num)
    linarith
  have e4 : (4.89411 : ℝ) < Real.exp (3.89411 * 1) := by
    have := Real.add_one_lt_exp (show (3.89411 : ℝ) * 1 ≠ 0 by norm_num)
    linarith
  have p2 : (0 : ℝ) < 0.19300 / Real.exp (0.47635 * 1) :=
    div_pos (by norm_num) (Real.exp_pos _)
  have p3 : (0 : ℝ) < 1.03587 / Real.exp (1.52996 * 1) :=
    div_pos (by norm_num) (Real.exp_pos _)
  have p4 : (0 : ℝ) < 1.76474 / Real.exp (3.89411 * 1) :=
    div_pos (by norm_num) (Real.exp_pos _)
  constructor
  · have : (1.06036 : ℝ) / 1 = 1.06036 := by norm_num
    linarith
  · have b2 : (0.19300 : ℝ) / Real.exp (0.47635 * 1) < 0.19300 / 1.47635 :=
      div_lt_div_of_pos_left (by norm_num) (by norm_num) e2
    have b3 : (1.03587 : ℝ) / Real.exp (1.52996 * 1) < 1.03587 / 2.52996 :=
      div_lt_div_of_pos_left (by norm_num) (by norm_num) e3
    have b4 : (1.76474 : ℝ) / Real.exp (3.89411 * 1) < 1.76474 / 4.89411 :=
      div_lt_div_of_pos_left (by norm_num) (by norm_num) e4
    have hb : (1.06036 : ℝ) / 1 + 0.19300 / 1.47635 + 1.03587 / 2.52996 +
        1.76474 / 4.89411 < 2.7 := by norm_num
    linarith

/-! ## Claims -/

/-- C3: for every reduced temperature `w > 0`, `omega_ij w` raises a
domain-range error (returns `none`) if and only if the correlation value lies
outside the open interval `(0.5, 2.7)`; when no error is raised the returned
value lies strictly within `(0.5, 2.7)`. -/
theorem omega_domain_error_iff (w : ℝ) (hw : 0 < w) :
    (FluidMixture.omega_ij w = none ↔
      FluidMixture.omegaValue w ≤ 0.5 ∨ 2.7 ≤ FluidMixture.omegaValue w) ∧
    ∀ v, FluidMixture.omega_ij w = some v → 0.5 < v ∧ v < 2.7 :=
  ⟨omega_ij_eq_none_iff w, fun _ h => omega_ij_some_bounds h⟩

/-- Witness for C3 at `w = 1`. -/
theorem omega_domain_error_iff_witness :
    (0 : ℝ) < 1 ∧
    ((FluidMixture.omega_ij 1 = none ↔
      FluidMixture.omegaValue 1 ≤ 0.5 ∨ 2.7 ≤ FluidMixture.omegaValue 1) ∧
    ∀ v, FluidMixture.omega_ij 1 = some v → 0.5 < v ∧ v < 2.7) :=
  ⟨by norm_num, omega_domain_error_iff 1 (by norm_num)⟩

/-- C4: whenever `omega_ij w` returns normally at a reduced temperature
`w > 0`, the returned value equals
`A1/w^B1 + A2/exp(B2*w) + A3/exp(B3*w) + A4/exp(B4*w)` with
`A1=1.06036, B1=0.15610, A2=0.19300, B2=0.47635, A3=1.03587, B3=1.52996,
A4=1.76474, B4=3.89411`. -/
theorem omega_returned_formula (w v : ℝ) (hw : 0 < w)
    (h : FluidMixture.omega_ij w = some v) :
    v = 1.06036 / w ^ (0.15610 : ℝ) + 0.19300 / Real.exp (0.47635 * w) +
      1.03587 / Real.exp (1.52996 * w) + 1.76474 / Real.exp (3.89411 * w) :=
  omega_ij_some_eq h

/-- Witness for C4 at `w = 1`. -/
theorem omega_returned_formula_witness :
    (0 : ℝ) < 1 ∧
    FluidMixture.omega_ij 1 = some (FluidMixture.omegaValue 1) ∧
    FluidMixture.omegaValue 1 =
      1.06036 / (1 : ℝ) ^ (0.15610 : ℝ) + 0.19300 / Real.exp (0.47635 * 1) +
        1.03587 / Real.exp (1.52996 * 1) + 1.76474 / Real.exp (3.89411 * 1) := by
  have hsome : FluidMixture.omega_ij 1 = some (FluidMixture.omegaValue 1) :=
    omega_ij_eq_some_of_bounds omegaValue_one_bounds.1 omegaValue_one_bounds.2
  exact ⟨by norm_num, hsome, omega_returned_formula 1 _ (by norm_num) hsome⟩

/-- C6: for every geometry `(e, d, t)`, molecular weight `M > 0` and
temperature `T > 0`, the Knudsen diffusivity computed by `PureFluid.knudsen`
equals `(e * d / t / 3) * sqrt(8 * R * T / (pi * M))` with `R = 8.314`. -/
theorem knudsen_kinetic_formula (e d t M T : ℝ) (hM : 0 < M) (hT : 0 < T) :
    (PureFluid.init e d t (some M)).knudsen T =
      some (e * d / t / 3 * Real.sqrt (8 * 8.314 * T / (Real.pi * M))) := by
  simp only [PureFluid.init, PureFluid.knudsen, div_div]

/-- Witness for C6 at `e = d = t = M = T = 1`. -/
theorem knudsen_kinetic_formula_witness :
    (0 : ℝ) < 1 ∧
    (PureFluid.init 1 1 1 (some 1)).knudsen 1 =
      some (1 * 1 / 1 / 3 * Real.sqrt (8 * 8.314 * 1 / (Real.pi * 1))) :=
  ⟨by norm_num, knudsen_kinetic_formula 1 1 1 1 1 (by norm_num) (by norm_num)⟩

/-- C5: for every pair of species with entries in the parameter mappings,
temperature `T > 0` (K) and pressure `P > 0` (atm), `molecular_ij i j T P`
equals `1.858e-3 * sqrt(T^3 * (1/M_i + 1/M_j)) / (P * sigma_ij^2 *
Omega(T/epsilon_ij))` divided by `10000`, where `M_i`, `M_j` are the stored
molecular weights times `1000`, `sigma_ij = (si + sj)/2` and
`epsilon_ij = sqrt(ei * ej)`.  The bound hypotheses say the collision
integral's assertion passes (the call returns normally). -/
theorem molecular_chapman_enskog (m : FluidMixture) (i j : String)
    (T P mi mj si sj ei ej : ℝ) (hT : 0 < T) (hP : 0 < P)
    (hmi : dictFind? m.molecular_weight_i i = some mi)
    (hmj : dictFind? m.molecular_weight_i j = some mj)
    (hsi : dictFind? m.sigma_i i = some si)
    (hsj : dictFind? m.sigma_i j = some sj)
    (hei : dictFind? m.epsilon_i i = some ei)
    (hej : dictFind? m.epsilon_i j = some ej)
    (h1 : 0.5 < FluidMixture.omegaValue (T / Real.sqrt (ei * ej)))
    (h2 : FluidMixture.omegaValue (T / Real.sqrt (ei * ej)) < 2.7) :
    m.molecular_ij i j T P =
      some (1.858e-3 * Real.sqrt (T ^ 3 * (1 / (mi * 1000) + 1 / (mj * 1000))) /
        (P * ((si + sj) / 2) ^ 2 *
          FluidMixture.omegaValue (T / Real.sqrt (ei * ej))) / 10000) := by
  unfold FluidMixture.molecular_ij FluidMixture.sigma_ij_rule
    FluidMixture.epsilon_ij_rule
  rw [hmi, hmj, hsi, hsj, hei, hej]
  simp only
  rw [omega_ij_eq_some_of_bounds h1 h2]
  simp only [Option.some.injEq]
  rw [show T * T * T = T ^ 3 by ring]
  ring

/-- C1: `effective_macropore_i i j T P` (P in Pa) returns
`voidFraction / tortuosity / (1/D_m + 1/D_k)` where `D_m` is `molecular_ij`
evaluated at `P / 101325` atm and `D_k` is the Knudsen diffusivity evaluated
from species `i`'s molecular weight alone (the formula below mentions neither
`j` nor `P`, so the partner species and the pressure do not influence the
Knudsen term). -/
theorem effective_macropore_formula (m : FluidMixture) (i j : String)
    (T P Dm Mi : ℝ) (hij : i ≠ j) (hT : 0 < T) (hP : 0 < P)
    (hm : m.molecular_ij i j T (P / 101325) = some Dm)
    (hk : dictFind? m.molecular_weight_i i = some Mi) :
    m.effective_macropore_i i j T P =
      some (m.setMW (some Mi),
        m.void_fraction / m.tortuosity /
          (1 / Dm +
           1 / (m.void_fraction * m.d_pore / m.tortuosity / 3 *
                Real.sqrt (8 * m.R * T / (Real.pi * Mi))))) := by
  unfold FluidMixture.effective_macropore_i FluidMixture.knudsen_i
  rw [hm, hk]
  simp only [FluidMixture.setMW, PureFluid.knudsen, div_div]



theorem wmix_lookup_mw_CH4 (o : Option ℝ) :
    dictFind? (WMix o).molecular_weight_i "CH4" = some 0.016 := by
  simp [WMix, dictFind?]

theorem wmix_lookup_mw_H2 (o : Option ℝ) :
    dictFind? (WMix o).molecular_weight_i "H2" = some 0.002 := by
  simp [WMix, dictFind?]

theorem wmix_lookup_sigma_CH4 (o : Option ℝ) :
    dictFind? (WMix o).sigma_i "CH4" = some 4 := by
  simp [WMix, dictFind?]

theorem wmix_lookup_sigma_H2 (o : Option ℝ) :
    dictFind? (WMix o).sigma_i "H2" = some 3 := by
  simp [WMix, dictFind?]

theorem wmix_lookup_eps_CH4 (o : Option ℝ) :
    dictFind? (WMix o).epsilon_i "CH4" = some 300 := by
  simp [WMix, dictFind?]

theorem wmix_lookup_eps_H2 (o : Option ℝ) :
    dictFind? (WMix o).epsilon_i "H2" = some 300 := by
  simp [WMix, dictFind?]

theorem wmix_setMW (o o' : Option ℝ) : (WMix o).setMW o' = WMix o' := by
  simp [WMix, FluidMixture.setMW]

/-- The reduced temperature of the witness pair at `T = 300` is `1`. -/
theorem omega_arg_300 : (300 : ℝ) / Real.sqrt (300 * 300) = 1 := by
  rw [Real.sqrt_mul_self (by norm_num : (0 : ℝ) ≤ 300)]
  norm_num



theorem wmix_molecular_CH4H2 (o : Option ℝ) (P : ℝ) :
    (WMix o).molecular_ij "CH4" "H2" 300 P = some (mCH4H2val P) := by
  unfold FluidMixture.molecular_ij FluidMixture.sigma_ij_rule
    FluidMixture.epsilon_ij_rule
  rw [wmix_lookup_mw_CH4, wmix_lookup_mw_H2, wmix_lookup_sigma_CH4,
    wmix_lookup_sigma_H2, wmix_lookup_eps_CH4, wmix_lookup_eps_H2]
  simp only
  rw [omega_arg_300,
    omega_ij_eq_some_of_bounds omegaValue_one_bounds.1 omegaValue_one_bounds.2]
  rfl

theorem wmix_molecular_H2CH4 (o : Option ℝ) (P : ℝ) :
    (WMix o).molecular_ij "H2" "CH4" 300 P = some (mH2CH4val P) := by
  unfold FluidMixture.molecular_ij FluidMixture.sigma_ij_rule
    FluidMixture.epsilon_ij_rule
  rw [wmix_lookup_mw_H2, wmix_lookup_mw_CH4, wmix_lookup_sigma_H2,
    wmix_lookup_sigma_CH4, wmix_lookup_eps_H2, wmix_lookup_eps_CH4]
  simp only
  rw [omega_arg_300,
    omega_ij_eq_some_of_bounds omegaValue_one_bounds.1 omegaValue_one_bounds.2]
  rfl

theorem wmix_knudsen_CH4 (o : Option ℝ) (j : String) (P : ℝ) :
    (WMix o).knudsen_i "CH4" j 300 P = some (WMix (some 0.016), kCH4val) := by
  unfold FluidMixture.knudsen_i
  rw [wmix_lookup_mw_CH4]
  simp only
  rw [wmix_setMW]
  rfl

theorem wmix_knudsen_H2 (o : Option ℝ) (j : String) (P : ℝ) :
    (WMix o).knudsen_i "H2" j 300 P = some (WMix (some 0.002), kH2val) := by
  unfold FluidMixture.knudsen_i
  rw [wmix_lookup_mw_H2]
  simp only
  rw [wmix_setMW]
  rfl

theorem wmix_effective_CH4H2 (o : Option ℝ) :
    (WMix o).effective_macropore_i "CH4" "H2" 300 101325 =
      some (WMix (some 0.016), effCH4H2val) := by
  unfold FluidMixture.effective_macropore_i
  rw [wmix_molecular_CH4H2, wmix_knudsen_CH4]
  rfl

theorem wmix_effective_H2CH4 (o : Option ℝ) :
    (WMix o).effective_macropore_i "H2" "CH4" 300 101325 =
      some (WMix (some 0.002), effH2CH4val) := by
  unfold FluidMixture.effective_macropore_i
  rw [wmix_molecular_H2CH4, wmix_knudsen_H2]
  rfl

/-- Witness for C5 on the concrete mixture at `T = 300` K, `P = 1` atm. -/
theorem molecular_chapman_enskog_witness :
    (0.5 < FluidMixture.omegaValue (300 / Real.sqrt ((300 : ℝ) * 300)) ∧
     FluidMixture.omegaValue (300 / Real.sqrt ((300 : ℝ) * 300)) < 2.7) ∧
    (WMix none).molecular_ij "CH4" "H2" 300 1 =
      some (1.858e-3 *
          Real.sqrt ((300 : ℝ) ^ 3 * (1 / (0.016 * 1000) + 1 / (0.002 * 1000))) /
        (1 * (((4 : ℝ) + 3) / 2) ^ 2 *
          FluidMixture.omegaValue (300 / Real.sqrt ((300 : ℝ) * 300))) / 10000) := by
  have hb1 : 0.5 < FluidMixture.omegaValue ((300 : ℝ) / Real.sqrt (300 * 300)) := by
    rw [omega_arg_300]; exact omegaValue_one_bounds.1
  have hb2 : FluidMixture.omegaValue ((300 : ℝ) / Real.sqrt (300 * 300)) < 2.7 := by
    rw [omega_arg_300]; exact omegaValue_one_bounds.2
  exact ⟨⟨hb1, hb2⟩,
    molecular_chapman_enskog (WMix none) "CH4" "H2" 300 1 0.016 0.002 4 3 300 300
      (by norm_num) (by norm_num) (wmix_lookup_mw_CH4 none) (wmix_lookup_mw_H2 none)
      (wmix_lookup_sigma_CH4 none) (wmix_lookup_sigma_H2 none)
      (wmix_lookup_eps_CH4 none) (wmix_lookup_eps_H2 none) hb1 hb2⟩

/-- Witness for C1 on the concrete mixture at `T = 300` K, `P = 101325` Pa. -/
theorem effective_macropore_formula_witness :
    (WMix none).molecular_ij "CH4" "H2" 300 (101325 / 101325) =
      some (mCH4H2val (101325 / 101325)) ∧
    (WMix none).effective_macropore_i "CH4" "H2" 300 101325 =
      some ((WMix none).setMW (some 0.016),
        (WMix none).void_fraction / (WMix none).tortuosity /
          (1 / mCH4H2val (101325 / 101325) +
           1 / ((WMix none).void_fraction * (WMix none).d_pore /
                  (WMix none).tortuosity / 3 *
                Real.sqrt (8 * (WMix none).R * 300 / (Real.pi * 0.016))))) :=
  ⟨wmix_molecular_CH4H2 none _,
   effective_macropore_formula (WMix none) "CH4" "H2" 300 101325
     (mCH4H2val (101325 / 101325)) 0.016 (by decide) (by norm_num) (by norm_num)
     (wmix_molecular_CH4H2 none _) (wmix_lookup_mw_CH4 none)⟩

/-- If `knudsen_i` returns, the model state it returns is the input model
with the inherited `molecular_weight` attribute overwritten by
`molecular_weight_i[i]`. -/
theorem knudsen_i_state (m : FluidMixture) (i j : String) (T P : ℝ)
    (m' : FluidMixture) (v : ℝ) (h : m.knudsen_i i j T P = some (m', v)) :
    m' = m.setMW (dictFind? m.molecular_weight_i i) := by
  unfold FluidMixture.knudsen_i at h
  cases hmw : dictFind? m.molecular_weight_i i with
  | none => rw [hmw] at h; simp at h
  | some M =>
    rw [hmw] at h
    simp only [FluidMixture.setMW, PureFluid.knudsen] at h ⊢
    simp only [Option.some.injEq, Prod.mk.injEq] at h
    exact h.1.symm

/-- If `effective_macropore_i` returns, the model state it returns is the one
produced by its internal `knudsen_i` call. -/
theorem effective_macropore_state (m : FluidMixture) (i j : String) (T P : ℝ)
    (m' : FluidMixture) (v : ℝ)
    (h : m.effective_macropore_i i j T P = some (m', v)) :
    m' = m.setMW (dictFind? m.molecular_weight_i i) := by
  unfold FluidMixture.effective_macropore_i at h
  cases hdm : m.molecular_ij i j T (P / 101325) with
  | none => rw [hdm] at h; simp at h
  | some dm =>
    rw [hdm] at h
    simp only at h
    cases hk : m.knudsen_i i j T P with
    | none => rw [hk] at h; simp at h
    | some r =>
      rw [hk] at h
      simp only [Option.some.injEq] at h
      have hm1 : r.1 = m' := congrArg Prod.fst h
      rw [← hm1]
      exact knudsen_i_state m i j T P r.1 r.2 (by rw [hk])

/-- C2 (amended): the only mutation any diffusivity computation performs is
that `knudsen_i` (and hence `effective_macropore_i`, which calls it)
overwrites the single inherited `molecular_weight` attribute with
`molecular_weight_i[i]`; every other field of the model is unchanged
(`molecular_ij` returns a bare value and touches no state at all). -/
theorem mutation_only_molecular_weight (m : FluidMixture) (i j : String)
    (T P : ℝ) :
    (∀ m' v, m.knudsen_i i j T P = some (m', v) →
      m' = m.setMW (dictFind? m.molecular_weight_i i)) ∧
    (∀ m' v, m.effective_macropore_i i j T P = some (m', v) →
      m' = m.setMW (dictFind? m.molecular_weight_i i)) ∧
    ∀ o : Option ℝ,
      (m.setMW o).void_fraction = m.void_fraction ∧
      (m.setMW o).d_pore = m.d_pore ∧
      (m.setMW o).tortuosity = m.tortuosity ∧
      (m.setMW o).R = m.R ∧
      (m.setMW o).molecular_weight_i = m.molecular_weight_i ∧
      (m.setMW o).sigma_i = m.sigma_i ∧
      (m.setMW o).epsilon_i = m.epsilon_i ∧
      (m.setMW o).component_i = m.component_i ∧
      (m.setMW o).molecular_weight = o :=
  ⟨fun m' v h => knudsen_i_state m i j T P m' v h,
   fun m' v h => effective_macropore_state m i j T P m' v h,
   fun _ => ⟨rfl, rfl, rfl, rfl, rfl, rfl, rfl, rfl, rfl⟩⟩

/-- Witness for the amended C2 on the concrete mixture. -/
theorem mutation_only_molecular_weight_witness :
    (WMix none).knudsen_i "CH4" "H2" 300 101325 =
      some (WMix (some 0.016), kCH4val) ∧
    WMix (some 0.016) =
      (WMix none).setMW (dictFind? (WMix none).molecular_weight_i "CH4") := by
  have h := wmix_knudsen_CH4 none "H2" 101325
  exact ⟨h,
    (mutation_only_molecular_weight (WMix none) "CH4" "H2" 300 101325).1 _ _ h⟩

/-- C2 counterexample: calling `knudsen_i` on the concrete mixture is visible
to callers as a change of the model's `molecular_weight` field from `none`
(Python `None`) to `some 0.016`. -/
theorem knudsen_i_mutation_counterexample :
    ((WMix none).knudsen_i "CH4" "H2" 300 101325).map
        (fun r => r.1.molecular_weight) = some (some 0.016) ∧
    (WMix none).molecular_weight = none := by
  rw [wmix_knudsen_CH4 none "H2" 101325]
  exact ⟨rfl, rfl⟩

/-- Series-resistance arithmetic: for `0 < q ≤ 1` and positive resistTerms,
`q / (1/Dm + 1/Dk)` exceeds neither `Dk` nor `Dm`. -/
theorem series_resistance_le (q Dm Dk : ℝ) (hq0 : 0 < q) (hq1 : q ≤ 1)
    (hm : 0 < Dm) (hk : 0 < Dk) :
    q / (1 / Dm + 1 / Dk) ≤ Dk ∧ q / (1 / Dm + 1 / Dk) ≤ Dm := by
  have hS : 0 < 1 / Dm + 1 / Dk := by positivity
  constructor
  · rw [div_le_iff₀ hS]
    have h2 : Dk * (1 / Dk) = 1 := by
      rw [mul_one_div, div_self (ne_of_gt hk)]
    nlinarith [mul_pos hk (one_div_pos.mpr hm)]
  · rw [div_le_iff₀ hS]
    have h2 : Dm * (1 / Dm) = 1 := by
      rw [mul_one_div, div_self (ne_of_gt hm)]
    nlinarith [mul_pos hm (one_div_pos.mpr hk)]

/-- A normally returning `molecular_ij` call with positive inputs returns a
positive diffusivity. -/
theorem molecular_ij_value_pos (m : FluidMixture) (i j : String)
    (T P mi mj si sj Dm : ℝ) (hT : 0 < T) (hP : 0 < P)
    (hmi : dictFind? m.molecular_weight_i i = some mi) (hmi0 : 0 < mi)
    (hmj : dictFind? m.molecular_weight_i j = some mj) (hmj0 : 0 < mj)
    (hsi : dictFind? m.sigma_i i = some si) (hsi0 : 0 < si)
    (hsj : dictFind? m.sigma_i j = some sj) (hsj0 : 0 < sj)
    (hDm : m.molecular_ij i j T P = some Dm) : 0 < Dm := by
  unfold FluidMixture.molecular_ij FluidMixture.sigma_ij_rule
    FluidMixture.epsilon_ij_rule at hDm
  rw [hmi, hmj, hsi, hsj] at hDm
  simp only at hDm
  cases hei : dictFind? m.epsilon_i i with
  | none => rw [hei] at hDm; simp at hDm
  | some ei =>
    rw [hei] at hDm
    cases hej : dictFind? m.epsilon_i j with
    | none => rw [hej] at hDm; simp at hDm
    | some ej =>
      rw [hej] at hDm
      simp only at hDm
      cases hom : FluidMixture.omega_ij (T / Real.sqrt (ei * ej)) with
      | none => rw [hom] at hDm; simp at hDm
      | some om =>
        rw [hom] at hDm
        simp only [Option.some.injEq] at hDm
        have hom0 : 0 < om := lt_trans (by norm_num) (omega_ij_some_bounds hom).1
        rw [← hDm]
        have harg : 0 < T * T * T * (1 / (mi * 1000) + 1 / (mj * 1000)) := by
          positivity
        have hsq : 0 < Real.sqrt (T * T * T * (1 / (mi * 1000) + 1 / (mj * 1000))) :=
          Real.sqrt_pos.mpr harg
        positivity

/-- A returning `knudsen_i` call with positive geometry, gas constant,
temperature and stored molecular weight returns a positive diffusivity. -/
theorem knudsen_i_value_pos (m : FluidMixture) (i j : String) (T P Mi Dk : ℝ)
    (m' : FluidMixture)
    (he0 : 0 < m.void_fraction) (hd : 0 < m.d_pore) (ht0 : 0 < m.tortuosity)
    (hR : 0 < m.R) (hT : 0 < T)
    (hmi : dictFind? m.molecular_weight_i i = some Mi) (hmi0 : 0 < Mi)
    (hK : m.knudsen_i i j T P = some (m', Dk)) : 0 < Dk := by
  unfold FluidMixture.knudsen_i at hK
  rw [hmi] at hK
  simp only [FluidMixture.setMW, PureFluid.knudsen] at hK
  simp only [Option.some.injEq, Prod.mk.injEq] at hK
  rw [← hK.2]
  have harg : 0 < 8 * m.R * T / Real.pi / Mi := by
    have hpi := Real.pi_pos
    positivity
  have hsq : 0 < Real.sqrt (8 * m.R * T / Real.pi / Mi) := Real.sqrt_pos.mpr harg
  positivity

/-- C7: for every model with valid geometry (`0 < voidFraction ≤ 1`,
`tortuosity ≥ 1`, positive pore diameter, `R = 8.314`), positive species
parameters, `T > 0` and `P > 0` Pa, whenever `molecular_ij` (at `P/101325`
atm), `knudsen_i` and `effective_macropore_i` all return, the effective
macropore diffusivity exceeds neither the Knudsen diffusivity of species `i`
nor the molecular diffusivity of the pair. -/
theorem effective_le_individual (m : FluidMixture) (i j : String)
    (T P mi mj si sj Dm Dk Deff : ℝ) (m1 m2 : FluidMixture) (hij : i ≠ j)
    (he0 : 0 < m.void_fraction) (he1 : m.void_fraction ≤ 1)
    (ht : 1 ≤ m.tortuosity) (hd : 0 < m.d_pore) (hR : m.R = 8.314)
    (hT : 0 < T) (hP : 0 < P)
    (hmi : dictFind? m.molecular_weight_i i = some mi) (hmi0 : 0 < mi)
    (hmj : dictFind? m.molecular_weight_i j = some mj) (hmj0 : 0 < mj)
    (hsi : dictFind? m.sigma_i i = some si) (hsi0 : 0 < si)
    (hsj : dictFind? m.sigma_i j = some sj) (hsj0 : 0 < sj)
    (hDm : m.molecular_ij i j T (P / 101325) = some Dm)
    (hK : m.knudsen_i i j T P = some (m1, Dk))
    (hE : m.effective_macropore_i i j T P = some (m2, Deff)) :
    Deff ≤ Dk ∧ Deff ≤ Dm := by
  have ht0 : 0 < m.tortuosity := lt_of_lt_of_le one_pos ht
  have hDm0 : 0 < Dm :=
    molecular_ij_value_pos m i j T (P / 101325) mi mj si sj Dm hT
      (by positivity) hmi hmi0 hmj hmj0 hsi hsi0 hsj hsj0 hDm
  have hDk0 : 0 < Dk :=
    knudsen_i_value_pos m i j T P mi Dk m1 he0 hd ht0 (by rw [hR]; norm_num)
      hT hmi hmi0 hK
  unfold FluidMixture.effective_macropore_i at hE
  rw [hDm, hK] at hE
  simp only [Option.some.injEq, Prod.mk.injEq] at hE
  have hDeff : Deff = m.void_fraction / m.tortuosity / (1 / Dm + 1 / Dk) :=
    hE.2.symm
  have hq0 : 0 < m.void_fraction / m.tortuosity := div_pos he0 ht0
  have hq1 : m.void_fraction / m.tortuosity ≤ 1 := by
    rw [div_le_one ht0]; linarith
  rw [hDeff]
  exact series_resistance_le _ Dm Dk hq0 hq1 hDm0 hDk0

/-- Witness for C7 on the concrete mixture at `T = 300` K, `P = 101325` Pa. -/
theorem effective_le_individual_witness :
    (WMix none).molecular_ij "CH4" "H2" 300 (101325 / 101325) =
      some (mCH4H2val (101325 / 101325)) ∧
    (WMix none).knudsen_i "CH4" "H2" 300 101325 =
      some (WMix (some 0.016), kCH4val) ∧
    (WMix none).effective_macropore_i "CH4" "H2" 300 101325 =
      some (WMix (some 0.016), effCH4H2val) ∧
    effCH4H2val ≤ kCH4val ∧ effCH4H2val ≤ mCH4H2val (101325 / 101325) := by
  have hm := wmix_molecular_CH4H2 none (101325 / 101325)
  have hk := wmix_knudsen_CH4 none "H2" 101325
  have he := wmix_effective_CH4H2 none
  refine ⟨hm, hk, he, ?_⟩
  exact effective_le_individual (WMix none) "CH4" "H2" 300 101325 0.016 0.002
    4 3 (mCH4H2val (101325 / 101325)) kCH4val effCH4H2val
    (WMix (some 0.016)) (WMix (some 0.016)) (by decide)
    (by norm_num [WMix]) (by norm_num [WMix]) (by norm_num [WMix])
    (by norm_num [WMix]) (by norm_num [WMix]) (by norm_num) (by norm_num)
    (wmix_lookup_mw_CH4 none) (by norm_num) (wmix_lookup_mw_H2 none)
    (by norm_num) (wmix_lookup_sigma_CH4 none) (by norm_num)
    (wmix_lookup_sigma_H2 none) (by norm_num) hm hk he



theorem innerLoop_nil (m : FluidMixture) (i : String) (T P : ℝ) :
    m.innerLoop i [] T P = some (m, []) := rfl

theorem innerLoop_cons_skip (m : FluidMixture) (i : String)
    (rest : List String) (T P : ℝ) :
    m.innerLoop i (i :: rest) T P = m.innerLoop i rest T P := by
  simp [FluidMixture.innerLoop]

theorem innerLoop_cons_ne (m : FluidMixture) (i k : String) (h : ¬ i = k)
    (rest : List String) (T P : ℝ) :
    m.innerLoop i (k :: rest) T P =
      match m.rowsForPair i k T P with
      | none => none
      | some (m1, rs) =>
        match m1.innerLoop i rest T P with
        | none => none
        | some (m2, rs2) => some (m2, rs ++ rs2) := by
  rw [FluidMixture.innerLoop]
  rw [if_neg h]

theorem outerLoop_nil (m : FluidMixture) (cs : List String) (T P : ℝ) :
    m.outerLoop [] cs T P = some (m, []) := rfl

theorem outerLoop_cons (m : FluidMixture) (i : String) (rest cs : List String)
    (T P : ℝ) :
    m.outerLoop (i :: rest) cs T P =
      match m.innerLoop i cs T P with
      | none => none
      | some (m1, rs) =>
        match m1.outerLoop rest cs T P with
        | none => none
        | some (m2, rs2) => some (m2, rs ++ rs2) := rfl

theorem rowsForPair_proj (m m' : FluidMixture) (i j : String) (T P : ℝ)
    (rs : List Row) (h : m.rowsForPair i j T P = some (m', rs)) :
    rs.map Row.proj = pairAttrs i j := by
  unfold FluidMixture.rowsForPair at h
  cases h1 : m.effective_macropore_i i j T P with
  | none => rw [h1] at h; simp at h
  | some r1 =>
    obtain ⟨m1, v1⟩ := r1
    rw [h1] at h
    simp only at h
    cases h2 : m1.knudsen_i i j T P with
    | none => rw [h2] at h; simp at h
    | some r2 =>
      obtain ⟨m2, v2⟩ := r2
      rw [h2] at h
      simp only at h
      cases h3 : m2.molecular_ij i j T P with
      | none => rw [h3] at h; simp at h
      | some v3 =>
        rw [h3] at h
        simp only [Option.some.injEq, Prod.mk.injEq] at h
        rw [← h.2]
        simp [Row.proj, pairAttrs]

theorem innerLoop_proj (i : String) (T P : ℝ) :
    ∀ (js : List String) (m m' : FluidMixture) (rows : List Row),
      m.innerLoop i js T P = some (m', rows) →
      rows.map Row.proj =
        (js.filter fun j => decide (¬ i = j)).flatMap (pairAttrs i) := by
  intro js
  induction js with
  | nil =>
    intro m m' rows h
    rw [innerLoop_nil] at h
    simp only [Option.some.injEq, Prod.mk.injEq] at h
    rw [← h.2]
    simp
  | cons j rest ih =>
    intro m m' rows h
    by_cases hij : i = j
    · subst hij
      rw [innerLoop_cons_skip] at h
      rw [ih m m' rows h]
      simp [List.filter_cons]
    · rw [innerLoop_cons_ne m i j hij rest T P] at h
      cases h1 : m.rowsForPair i j T P with
      | none => rw [h1] at h; simp at h
      | some r1 =>
        obtain ⟨m1, rs⟩ := r1
        rw [h1] at h
        simp only at h
        cases h2 : m1.innerLoop i rest T P with
        | none => rw [h2] at h; simp at h
        | some r2 =>
          obtain ⟨m2, rs2⟩ := r2
          rw [h2] at h
          simp only [Option.some.injEq, Prod.mk.injEq] at h
          rw [← h.2, List.map_append, rowsForPair_proj m m1 i j T P rs h1,
            ih m1 m2 rs2 h2]
          simp [List.filter_cons, hij]


theorem outerLoop_proj (cs : List String) (T P : ℝ) :
    ∀ (iList : List String) (m m' : FluidMixture) (rows : List Row),
      m.outerLoop iList cs T P = some (m', rows) →
      rows.map Row.proj =
        iList.flatMap fun i =>
          (cs.filter fun j => decide (¬ i = j)).flatMap (pairAttrs i) := by
  intro iList
  induction iList with
  | nil =>
    intro m m' rows h
    rw [outerLoop_nil] at h
    simp only [Option.some.injEq, Prod.mk.injEq] at h
    rw [← h.2]
    simp
  | cons i rest ih =>
    intro m m' rows h
    rw [outerLoop_cons] at h
    cases h1 : m.innerLoop i cs T P with
    | none => rw [h1] at h; simp at h
    | some r1 =>
      obtain ⟨m1, rs⟩ := r1
      rw [h1] at h
      simp only at h
      cases h2 : m1.outerLoop rest cs T P with
      | none => rw [h2] at h; simp at h
      | some r2 =>
        obtain ⟨m2, rs2⟩ := r2
        rw [h2] at h
        simp only [Option.some.injEq, Prod.mk.injEq] at h
        rw [← h.2, List.map_append, innerLoop_proj i T P cs m m1 rs h1,
          ih m1 m2 rs2 h2, List.flatMap_cons]

theorem length_filter_ne (i : String) :
    ∀ cs : List String, cs.Nodup → i ∈ cs →
      (cs.filter fun j => decide (¬ i = j)).length = cs.length - 1 := by
  intro cs
  induction cs with
  | nil => intro _ hi; simp at hi
  | cons a l ih =>
    intro hN hi
    rcases List.mem_cons.mp hi with rfl | hmem
    · have hnotin : i ∉ l := (List.nodup_cons.mp hN).1
      have hfl : l.filter (fun j => decide (¬ i = j)) = l :=
        List.filter_eq_self.mpr (fun j hj => by
          simp only [decide_eq_true_eq]
          exact fun hh => hnotin (hh ▸ hj))
      rw [List.filter_cons, if_neg (by simp), hfl]
      simp
    · have hN' := (List.nodup_cons.mp hN).2
      have hai : ¬ i = a := by
        rintro rfl
        exact (List.nodup_cons.mp hN).1 hmem
      have h1 : 0 < l.length := List.length_pos_of_mem hmem
      rw [List.filter_cons, if_pos (by simp [hai]), List.length_cons,
        ih hN' hmem, List.length_cons]
      omega

theorem length_bind_pairAttrs (i : String) (js : List String) :
    (js.flatMap (pairAttrs i)).length = 3 * js.length := by
  induction js with
  | nil => simp
  | cons a l ih =>
    rw [List.flatMap_cons, List.length_append, ih]
    simp [pairAttrs]
    ring

theorem length_expected_aux (cs : List String) (hN : cs.Nodup) :
    ∀ iList : List String, (∀ i ∈ iList, i ∈ cs) →
      (iList.flatMap fun i =>
        (cs.filter fun j => decide (¬ i = j)).flatMap (pairAttrs i)).length =
      3 * iList.length * (cs.length - 1) := by
  intro iList
  induction iList with
  | nil => intro _; simp
  | cons a l ih =>
    intro hsub
    rw [List.flatMap_cons, List.length_append, length_bind_pairAttrs,
      length_filter_ne a cs hN (hsub a (by simp)),
      ih (fun i hi => hsub i (by simp [hi]))]
    simp
    ring

theorem countP_pairAttrs_eff (i j : String) :
    (pairAttrs i j).countP (fun t => decide (t.2.2 = "effective_macropore_i")) = 1 := by
  simp [pairAttrs, List.countP_cons, List.countP_nil]

theorem countP_pairAttrs_knu (i j : String) :
    (pairAttrs i j).countP (fun t => decide (t.2.2 = "knudsen_i")) = 1 := by
  simp [pairAttrs, List.countP_cons, List.countP_nil]

theorem countP_pairAttrs_mol (i j : String) :
    (pairAttrs i j).countP (fun t => decide (t.2.2 = "molecular_ij")) = 1 := by
  simp [pairAttrs, List.countP_cons, List.countP_nil]

theorem countP_bind_pairAttrs (i : String) (js : List String)
    (p : String × String × String → Bool)
    (hblock : ∀ j, (pairAttrs i j).countP p = 1) :
    (js.flatMap (pairAttrs i)).countP p = js.length := by
  induction js with
  | nil => simp
  | cons a l ih =>
    rw [List.flatMap_cons, List.countP_append, hblock, ih]
    simp [Nat.add_comm]

theorem countP_expected_aux (cs : List String) (hN : cs.Nodup)
    (p : String × String × String → Bool)
    (hblock : ∀ i j, (pairAttrs i j).countP p = 1) :
    ∀ iList : List String, (∀ i ∈ iList, i ∈ cs) →
      (iList.flatMap fun i =>
        (cs.filter fun j => decide (¬ i = j)).flatMap (pairAttrs i)).countP p =
      iList.length * (cs.length - 1) := by
  intro iList
  induction iList with
  | nil => intro _; simp
  | cons a l ih =>
    intro hsub
    rw [List.flatMap_cons, List.countP_append,
      countP_bind_pairAttrs a _ p (hblock a),
      length_filter_ne a cs hN (hsub a (by simp)),
      ih (fun i hi => hsub i (by simp [hi]))]
    simp
    ring


/-- C8: for every model whose component list has distinct names, a successful
`write_calculations` run emits, in insertion order, exactly the three metric
rows for every ordered pair `(i, j)` with `i ≠ j` and none for `i = j`:
the label sequence is `expectedTriples`, the total row count is
`3 * n * (n - 1)` and each metric contributes `n * (n - 1)` rows. -/
theorem write_calculations_rows (m : FluidMixture) (T P : ℝ)
    (m' : FluidMixture) (rows : List Row) (hN : m.component_i.Nodup)
    (h : m.write_calculations T P = some (m', rows)) :
    rows.map Row.proj = expectedTriples m.component_i ∧
    rows.length = 3 * m.component_i.length * (m.component_i.length - 1) ∧
    rows.countP (fun r => decide (Row.attr r = "effective_macropore_i")) =
      m.component_i.length * (m.component_i.length - 1) ∧
    rows.countP (fun r => decide (Row.attr r = "knudsen_i")) =
      m.component_i.length * (m.component_i.length - 1) ∧
    rows.countP (fun r => decide (Row.attr r = "molecular_ij")) =
      m.component_i.length * (m.component_i.length - 1) := by
  have hexp : rows.map Row.proj = expectedTriples m.component_i :=
    outerLoop_proj m.component_i T P m.component_i m m' rows h
  have hlen : rows.length =
      3 * m.component_i.length * (m.component_i.length - 1) := by
    have hl := congrArg List.length hexp
    rw [List.length_map] at hl
    rw [hl]
    exact length_expected_aux m.component_i hN m.component_i (fun i hi => hi)
  have hcount : ∀ p : String × String × String → Bool,
      (∀ i j, (pairAttrs i j).countP p = 1) →
      rows.countP (fun r => p (Row.proj r)) =
        m.component_i.length * (m.component_i.length - 1) := by
    intro p hblock
    have hc := congrArg (List.countP p) hexp
    rw [List.countP_map] at hc
    rw [show (fun r => p (Row.proj r)) = p ∘ Row.proj from rfl, hc]
    exact countP_expected_aux m.component_i hN p hblock m.component_i
      (fun i hi => hi)
  exact ⟨hexp, hlen,
    hcount (fun t => decide (t.2.2 = "effective_macropore_i"))
      countP_pairAttrs_eff,
    hcount (fun t => decide (t.2.2 = "knudsen_i")) countP_pairAttrs_knu,
    hcount (fun t => decide (t.2.2 = "molecular_ij")) countP_pairAttrs_mol⟩

theorem wmix_rows_CH4H2 (o : Option ℝ) :
    (WMix o).rowsForPair "CH4" "H2" 300 101325 =
      some (WMix (some 0.016),
        [("CH4", "H2", "effective_macropore_i", effCH4H2val),
         ("CH4", "H2", "knudsen_i", kCH4val),
         ("CH4", "H2", "molecular_ij", mCH4H2val 101325)]) := by
  unfold FluidMixture.rowsForPair
  rw [wmix_effective_CH4H2 o]
  simp only
  rw [wmix_knudsen_CH4 (some 0.016) "H2" 101325]
  simp only
  rw [wmix_molecular_CH4H2 (some 0.016) 101325]

theorem wmix_rows_H2CH4 (o : Option ℝ) :
    (WMix o).rowsForPair "H2" "CH4" 300 101325 =
      some (WMix (some 0.002),
        [("H2", "CH4", "effective_macropore_i", effH2CH4val),
         ("H2", "CH4", "knudsen_i", kH2val),
         ("H2", "CH4", "molecular_ij", mH2CH4val 101325)]) := by
  unfold FluidMixture.rowsForPair
  rw [wmix_effective_H2CH4 o]
  simp only
  rw [wmix_knudsen_H2 (some 0.002) "CH4" 101325]
  simp only
  rw [wmix_molecular_H2CH4 (some 0.002) 101325]

theorem wmix_inner_CH4 (o : Option ℝ) :
    (WMix o).innerLoop "CH4" ["CH4", "H2"] 300 101325 =
      some (WMix (some 0.016),
        [("CH4", "H2", "effective_macropore_i", effCH4H2val),
         ("CH4", "H2", "knudsen_i", kCH4val),
         ("CH4", "H2", "molecular_ij", mCH4H2val 101325)]) := by
  rw [innerLoop_cons_skip, innerLoop_cons_ne _ "CH4" "H2" (by decide),
    wmix_rows_CH4H2 o]
  simp only
  rw [innerLoop_nil]
  rfl

theorem wmix_inner_H2 (o : Option ℝ) :
    (WMix o).innerLoop "H2" ["CH4", "H2"] 300 101325 =
      some (WMix (some 0.002),
        [("H2", "CH4", "effective_macropore_i", effH2CH4val),
         ("H2", "CH4", "knudsen_i", kH2val),
         ("H2", "CH4", "molecular_ij", mH2CH4val 101325)]) := by
  rw [innerLoop_cons_ne _ "H2" "CH4" (by decide), wmix_rows_H2CH4 o]
  simp only
  rw [innerLoop_cons_skip, innerLoop_nil]
  rfl



theorem wmix_write :
    (WMix none).write_calculations 300 101325 =
      some (WMix (some 0.002), wRows) := by
  unfold FluidMixture.write_calculations
  rw [show (WMix none).component_i = ["CH4", "H2"] from rfl]
  rw [outerLoop_cons, wmix_inner_CH4 none]
  simp only
  rw [outerLoop_cons, wmix_inner_H2 (some 0.016)]
  simp only
  rw [outerLoop_nil]
  rfl

/-- Witness for C8 on the concrete two-species mixture. -/
theorem write_calculations_rows_witness :
    (WMix none).component_i.Nodup ∧
    (WMix none).write_calculations 300 101325 =
      some (WMix (some 0.002), wRows) ∧
    (wRows.map Row.proj = expectedTriples (WMix none).component_i ∧
     wRows.length = 6 ∧
     wRows.countP (fun r => decide (Row.attr r = "effective_macropore_i")) = 2 ∧
     wRows.countP (fun r => decide (Row.attr r = "knudsen_i")) = 2 ∧
     wRows.countP (fun r => decide (Row.attr r = "molecular_ij")) = 2) := by
  have hN : (WMix none).component_i.Nodup := by
    rw [show (WMix none).component_i = ["CH4", "H2"] from rfl]
    decide
  refine ⟨hN, wmix_write, ?_⟩
  have h := write_calculations_rows (WMix none) 300 101325 (WMix (some 0.002))
    wRows hN wmix_write
  simpa using h


/-! ## `get_LJ_params` -/

theorem get_LJ_ok_of_all_mem (sub : List String) (sigCol epsCol : List ℝ)
    (hs : sigCol.length = sub.length) (he : epsCol.length = sub.length) :
    ∀ components : List String, (∀ c ∈ components, c ∈ sub) →
      ∃ sigma epsilon,
        get_LJ_params components sub sigCol epsCol = Except.ok (sigma, epsilon) ∧
        sigma.length = components.length ∧
        epsilon.length = components.length ∧
        ∀ k c, components.get? k = some c →
          sigma.get? k = sigCol.get? (sub.indexOf c) ∧
          epsilon.get? k = epsCol.get? (sub.indexOf c) := by
  intro components
  induction components with
  | nil =>
    intro _
    refine ⟨[], [], rfl, rfl, rfl, ?_⟩
    intro k c hkc
    simp at hkc
  | cons key rest ih =>
    intro hmem
    have hkey : key ∈ sub := hmem key (by simp)
    have hidx : sub.indexOf key < sub.length := List.indexOf_lt_length.mpr hkey
    obtain ⟨sg, ep, hok, hl1, hl2, helt⟩ := ih (fun c hc => hmem c (by simp [hc]))
    cases hsg : sigCol.get? (sub.indexOf key) with
    | none =>
      rw [List.get?_eq_none] at hsg
      omega
    | some sv =>
      cases hep : epsCol.get? (sub.indexOf key) with
      | none =>
        rw [List.get?_eq_none] at hep
        omega
      | some ev =>
        refine ⟨sv :: sg, ev :: ep, ?_, by simp [hl1], by simp [hl2], ?_⟩
        · unfold get_LJ_params
          rw [if_pos hkey, hsg, hep]
          simp only
          rw [hok]
        · intro k c hkc
          cases k with
          | zero =>
            simp only [List.get?] at hkc
            obtain rfl : key = c := by simpa using hkc
            exact ⟨by simpa using hsg.symm, by simpa using hep.symm⟩
          | succ k' =>
            simp only [List.get?] at hkc ⊢
            exact helt k' c hkc

theorem get_LJ_error_names (sub : List String) (sigCol epsCol : List ℝ)
    (hs : sigCol.length = sub.length) (he : epsCol.length = sub.length) :
    ∀ (components : List String) (msg : String),
      get_LJ_params components sub sigCol epsCol = Except.error msg →
      ∃ c ∈ components, c ∉ sub ∧
        msg = "No parameters found for " ++ c ++ " in LJparams.csv" := by
  intro components
  induction components with
  | nil =>
    intro msg h
    simp only [get_LJ_params] at h
    exact absurd h (by simp)
  | cons key rest ih =>
    intro msg h
    unfold get_LJ_params at h
    by_cases hkey : key ∈ sub
    · rw [if_pos hkey] at h
      have hidx : sub.indexOf key < sub.length := List.indexOf_lt_length.mpr hkey
      cases hsg : sigCol.get? (sub.indexOf key) with
      | none =>
        rw [List.get?_eq_none] at hsg
        omega
      | some sv =>
        cases hep : epsCol.get? (sub.indexOf key) with
        | none =>
          rw [List.get?_eq_none] at hep
          omega
        | some ev =>
          rw [hsg, hep] at h
          simp only at h
          cases hr : get_LJ_params rest sub sigCol epsCol with
          | ok pr =>
            obtain ⟨sg, ep⟩ := pr
            rw [hr] at h
            simp at h
          | error msg' =>
            rw [hr] at h
            simp only [Except.error.injEq] at h
            obtain ⟨c, hc, hcn, hmsg⟩ := ih msg' hr
            exact ⟨c, by simp [hc], hcn, h ▸ hmsg⟩
    · rw [if_neg hkey] at h
      simp only [Except.error.injEq] at h
      exact ⟨key, by simp, hkey, h.symm⟩

theorem get_LJ_error_of_missing (sub : List String) (sigCol epsCol : List ℝ)
    (hs : sigCol.length = sub.length) (he : epsCol.length = sub.length) :
    ∀ components : List String, (∃ c ∈ components, c ∉ sub) →
      ∃ msg, get_LJ_params components sub sigCol epsCol = Except.error msg := by
  intro components
  induction components with
  | nil =>
    rintro ⟨c, hc, -⟩
    simp at hc
  | cons key rest ih =>
    rintro ⟨c, hc, hcn⟩
    unfold get_LJ_params
    by_cases hkey : key ∈ sub
    · rw [if_pos hkey]
      have hidx : sub.indexOf key < sub.length := List.indexOf_lt_length.mpr hkey
      have hc' : c ∈ rest := by
        rcases List.mem_cons.mp hc with rfl | h
        · exact absurd hkey hcn
        · exact h
      cases hsg : sigCol.get? (sub.indexOf key) with
      | none =>
        rw [List.get?_eq_none] at hsg
        omega
      | some sv =>
        cases hep : epsCol.get? (sub.indexOf key) with
        | none =>
          rw [List.get?_eq_none] at hep
          omega
        | some ev =>
          simp only
          obtain ⟨msg, hmsg⟩ := ih ⟨c, hc', hcn⟩
          rw [hmsg]
          exact ⟨msg, rfl⟩
    · rw [if_neg hkey]
      exact ⟨_, rfl⟩

/-- C9: `get_LJ_params` fails if and only if some requested component is
absent from the `Substance` column; the failure message names a missing
species; on success the returned `sigma`/`epsilon` lists hold, at position
`k`, the table column values at the row index of the `k`-th component.  The
two length hypotheses say the table is rectangular (each `Substance` row has
a `sigma` and an `epsilon` value). -/
theorem get_LJ_params_spec (components sub : List String)
    (sigCol epsCol : List ℝ)
    (hs : sigCol.length = sub.length) (he : epsCol.length = sub.length) :
    ((∃ msg, get_LJ_params components sub sigCol epsCol = Except.error msg) ↔
      ∃ c ∈ components, c ∉ sub) ∧
    (∀ msg, get_LJ_params components sub sigCol epsCol = Except.error msg →
      ∃ c ∈ components, c ∉ sub ∧
        msg = "No parameters found for " ++ c ++ " in LJparams.csv") ∧
    (∀ sigma epsilon,
      get_LJ_params components sub sigCol epsCol = Except.ok (sigma, epsilon) →
      sigma.length = components.length ∧
      epsilon.length = components.length ∧
      ∀ k c, components.get? k = some c →
        sigma.get? k = sigCol.get? (sub.indexOf c) ∧
        epsilon.get? k = epsCol.get? (sub.indexOf c)) := by
  refine ⟨⟨?_, ?_⟩, ?_, ?_⟩
  · rintro ⟨msg, hmsg⟩
    obtain ⟨c, hc, hcn, -⟩ := get_LJ_error_names sub sigCol epsCol hs he
      components msg hmsg
    exact ⟨c, hc, hcn⟩
  · intro hmissing
    exact get_LJ_error_of_missing sub sigCol epsCol hs he components hmissing
  · exact get_LJ_error_names sub sigCol epsCol hs he components
  · intro sigma epsilon hok
    have hall : ∀ c ∈ components, c ∈ sub := by
      by_contra hnot
      push_neg at hnot
      obtain ⟨msg, hmsg⟩ := get_LJ_error_of_missing sub sigCol epsCol hs he
        components (by
          obtain ⟨c, hc, hcn⟩ := hnot
          exact ⟨c, hc, hcn⟩)
      rw [hok] at hmsg
      exact absurd hmsg (by simp)
    obtain ⟨sg, ep, hok', hl1, hl2, helt⟩ :=
      get_LJ_ok_of_all_mem sub sigCol epsCol hs he components hall
    rw [hok] at hok'
    obtain ⟨rfl, rfl⟩ : sigma = sg ∧ epsilon = ep := by
      have := hok'.symm
      simp only [Except.ok.injEq, Prod.mk.injEq] at this
      exact ⟨this.1.symm, this.2.symm⟩
    exact ⟨hl1, hl2, helt⟩

/-- Witness for C9 with the one-row table `Substance = [A]`,
`sigma = [1]`, `epsilon = [2]`. -/
theorem get_LJ_params_spec_witness :
    ([(1 : ℝ)].length = ["A"].length ∧ [(2 : ℝ)].length = ["A"].length) ∧
    ((∃ msg, get_LJ_params ["A"] ["A"] [1] [2] = Except.error msg) ↔
      ∃ c ∈ ["A"], c ∉ ["A"]) ∧
    (∀ sigma epsilon,
      get_LJ_params ["A"] ["A"] [1] [2] = Except.ok (sigma, epsilon) →
      sigma.length = 1 ∧ epsilon.length = 1) := by
  have h := get_LJ_params_spec ["A"] ["A"] [1] [2] rfl rfl
  refine ⟨⟨rfl, rfl⟩, h.1, ?_⟩
  intro sigma epsilon hok
  have := (h.2.2 sigma epsilon hok)
  exact ⟨this.1, this.2.1⟩


/-! ## Zip truncation at construction (C10) -/

theorem dictFind?_eq_none_of_not_mem (s : String) :
    ∀ d : List (String × ℝ), s ∉ d.map Prod.fst → dictFind? d s = none := by
  intro d
  induction d with
  | nil => intro _; rfl
  | cons kv rest ih =>
    intro h
    obtain ⟨k, v⟩ := kv
    simp only [List.map_cons, List.mem_cons, not_or] at h
    unfold dictFind?
    rw [ih h.2, if_neg (fun hk => h.1 hk.symm)]

theorem map_fst_zip_eq_take :
    ∀ (l1 : List String) (l2 : List ℝ),
      (l1.zip l2).map Prod.fst = l1.take l2.length := by
  intro l1
  induction l1 with
  | nil => intro l2; simp
  | cons a l ih =>
    intro l2
    cases l2 with
    | nil => simp
    | cons b m => simp [List.zip_cons_cons, ih m]

theorem not_mem_take_of_late_index (cs : List String) (hN : cs.Nodup)
    (k : ℕ) (s : String) (hk : cs.get? k = some s) (n : ℕ) (hn : n ≤ k) :
    s ∉ cs.take n := by
  intro hmem
  obtain ⟨m, hm⟩ := List.mem_iff_get?.mp hmem
  have hmlt : m < (cs.take n).length := by
    rcases List.get?_eq_some.mp hm with ⟨h, -⟩
    exact h
  have hmn : m < n := lt_of_lt_of_le hmlt (by simp [List.length_take])
  have hcs : cs.get? m = some s := by
    rw [← List.get?_take hmn]
    exact hm
  have hmk : m = k := by
    have hmlen : m < cs.length := by
      rcases List.get?_eq_some.mp hcs with ⟨h, -⟩
      exact h
    exact List.get?_inj hmlen hN (hcs.trans hk.symm)
  omega

/-- C10: constructing `FluidMixture` with a components list longer than the
molecular-weight list raises no error: `FluidMixture.init` is total and the
three per-species mappings are the truncating `zip`s of `components` with
each value list; a species whose index lies beyond the molecular-weight list
has no dictionary entry, so every later pairwise computation naming it as
the diffusing species fails with a key-lookup error (`none`) rather than
being rejected at construction. -/
theorem init_zip_truncation (components : List String) (mw sg ep : List ℝ)
    (e d t : ℝ) (hN : components.Nodup) (k : ℕ) (s : String)
    (hk : components.get? k = some s) (hlen : mw.length ≤ k) :
    (FluidMixture.init components mw sg ep e d t).molecular_weight_i =
      components.zip mw ∧
    (FluidMixture.init components mw sg ep e d t).sigma_i =
      components.zip sg ∧
    (FluidMixture.init components mw sg ep e d t).epsilon_i =
      components.zip ep ∧
    dictFind?
      (FluidMixture.init components mw sg ep e d t).molecular_weight_i s =
      none ∧
    ∀ (j : String) (T P : ℝ),
      (FluidMixture.init components mw sg ep e d t).knudsen_i s j T P =
        none ∧
      (FluidMixture.init components mw sg ep e d t).molecular_ij s j T P =
        none ∧
      (FluidMixture.init components mw sg ep e d t).effective_macropore_i
        s j T P = none := by
  have hnotmem : s ∉ (components.zip mw).map Prod.fst := by
    rw [map_fst_zip_eq_take]
    exact not_mem_take_of_late_index components hN k s hk mw.length hlen
  have hfind : dictFind? (components.zip mw) s = none :=
    dictFind?_eq_none_of_not_mem s (components.zip mw) hnotmem
  have hfind' :
      dictFind?
        (FluidMixture.init components mw sg ep e d t).molecular_weight_i s =
        none := hfind
  refine ⟨rfl, rfl, rfl, hfind', ?_⟩
  intro j T P
  refine ⟨?_, ?_, ?_⟩
  · unfold FluidMixture.knudsen_i
    rw [hfind']
  · unfold FluidMixture.molecular_ij
    rw [hfind']
  · unfold FluidMixture.effective_macropore_i FluidMixture.molecular_ij
    rw [hfind']

/-- Witness for C10: components `["A", "B"]` but a single molecular weight;
species `B` (index `1 ≥ 1`) is truncated away. -/
theorem init_zip_truncation_witness :
    ((["A", "B"] : List String).Nodup ∧
     (["A", "B"] : List String).get? 1 = some "B" ∧
     ([(1 : ℝ)] : List ℝ).length ≤ 1) ∧
    (dictFind?
      (FluidMixture.init ["A", "B"] [1] [4, 5] [6, 7] 1 1 1).molecular_weight_i
      "B" = none ∧
    (FluidMixture.init ["A", "B"] [1] [4, 5] [6, 7] 1 1 1).knudsen_i
      "B" "A" 300 101325 = none) := by
  have h := init_zip_truncation ["A", "B"] [1] [4, 5] [6, 7] 1 1 1
    (by decide) 1 "B" rfl (by norm_num)
  exact ⟨⟨by decide, rfl, by norm_num⟩, h.2.2.2.1, (h.2.2.2.2 "A" 300 101325).1⟩

end
